import Mathlib

/-!
Shallow embedding of `src/server.js` (the Salis chat relay backend).

The embedded pieces:

* `callGPTWithRetry` — the retrying completion client
  (`async function callGPTWithRetry(userMessage, retries = 3, delay = 1000)`,
  src/server.js lines 42-81).  The upstream provider is modelled as a
  function from the 1-based attempt number to an `UpstreamOutcome`
  (success body, HTTP error with a status, or a network failure with no
  response object).  The JS `for` loop with its local `attempt` and
  `delay` variables becomes a structurally decreasing recursion
  `callGPTWithRetryAux`; the value of a run records the result
  (`Except`), the total number of upstream attempts made, and the list of
  backoff waits performed, in order.

* `extractReply` — the JS expression
  `response.data.choices[0].message.content.trim()` (line 67); any missing
  field makes that expression throw a `TypeError`, which the `catch`
  block re-throws immediately because a `TypeError` carries no
  `.response` field.  `extractReply` returns `none` exactly in those
  malformed cases.

* `handleChat` — the `POST /chat` handler (lines 84-99): the falsy check
  `if (!userMessage)` over the possible JSON values of `req.body.message`,
  the 400 response, the 200 success response and the 500 failure
  response.  The second component of its value counts upstream calls.

* `stepCall` / `stepPair` / `runPair` — the per-call retry state machine
  of the same loop, and the interleaved execution of two independent
  calls, used to state per-request isolation of concurrent invocations.
-/

/-- One message object inside a choice: `{ message: { content: ... } }`.
`content = none` models a missing/non-string `content` field. -/
structure CompletionMessage where
  content : Option String
deriving DecidableEq, Repr

/-- One element of the `choices` array; `message = none` models a missing
`message` field. -/
structure Choice where
  message : Option CompletionMessage
deriving DecidableEq, Repr

/-- The body of a successful upstream response: `response.data`.
`choices = none` models a missing `choices` field. -/
structure ResponseBody where
  choices : Option (List Choice)
deriving DecidableEq, Repr

/-- What the upstream provider does on a given attempt, as seen by the
`try`/`catch` in `callGPTWithRetry`:
* `success body` — `axios.post` resolves with `response.data = body`;
* `httpError status` — `axios.post` rejects with an error carrying
  `error.response.status = status`;
* `networkError` — `axios.post` rejects with an error that has no
  `error.response` at all. -/
inductive UpstreamOutcome where
  | success (body : ResponseBody)
  | httpError (status : Nat)
  | networkError
deriving DecidableEq, Repr

/-- The errors `callGPTWithRetry` can propagate to its caller:
* `http status` — the axios error of a non-2xx response (line 76);
* `network` — the axios error of a failed request with no response;
* `extraction` — the `TypeError` thrown by
  `response.data.choices[0].message.content.trim()` on a malformed body;
* `exhausted` — `new Error('Exceeded maximum retry attempts')` (line 80). -/
inductive CallError where
  | http (status : Nat)
  | network
  | extraction
  | exhausted
deriving DecidableEq, Repr

/-- JavaScript `String.prototype.trim`: strip leading and trailing
whitespace from the character list of the string. -/
def jsTrim (s : String) : String :=
  ⟨((s.data.dropWhile Char.isWhitespace).reverse.dropWhile Char.isWhitespace).reverse⟩

/-- `response.data.choices[0].message.content.trim()` (src/server.js line 67):
`some` of the trimmed content of the first choice when every field is
present, `none` when the chain would throw a `TypeError`. -/
def extractReply (body : ResponseBody) : Option String :=
  match body.choices with
  | some (c :: _) =>
    match c.message with
    | some m =>
      match m.content with
      | some s => some (jsTrim s)
      | none => none
    | none => none
  | _ => none

/-- The observable behaviour of one call to `callGPTWithRetry`:
its returned value or thrown error, the number of upstream attempts it
made, and the backoff waits (in milliseconds) it performed, in order. -/
structure RetryRun where
  result : Except CallError String
  attempts : Nat
  waits : List Nat
deriving Repr

/-- The attempt loop of `callGPTWithRetry` (src/server.js lines 43-79),
entered at loop counter `attempt` with current backoff `delay`:

```js
for (let attempt = 1; attempt <= retries; attempt++) {
  try {
    const response = await axios.post(...);
    return response.data.choices[0].message.content.trim();
  } catch (error) {
    if (error.response && error.response.status === 429 && attempt < retries) {
      await new Promise((res) => setTimeout(res, delay));
      delay *= 2;
    } else {
      throw error;
    }
  }
}
throw new Error('Exceeded maximum retry attempts');
```
-/
def callGPTWithRetryAux (upstream : Nat → UpstreamOutcome) (retries : Nat)
    (attempt : Nat) (delay : Nat) : RetryRun :=
  if h : attempt ≤ retries then
    match upstream attempt with
    | .success body =>
      match extractReply body with
      | some reply => ⟨.ok reply, attempt, []⟩
      | none => ⟨.error .extraction, attempt, []⟩
    | .httpError status =>
      if h2 : status = 429 ∧ attempt < retries then
        let rest := callGPTWithRetryAux upstream retries (attempt + 1) (delay * 2)
        ⟨rest.result, rest.attempts, delay :: rest.waits⟩
      else
        ⟨.error (.http status), attempt, []⟩
    | .networkError => ⟨.error .network, attempt, []⟩
  else
    ⟨.error .exhausted, attempt - 1, []⟩
termination_by retries + 1 - attempt
decreasing_by simp_wf; omega

/-- `callGPTWithRetry(userMessage, retries, delay)` (src/server.js
lines 42-81): run the attempt loop from attempt 1.  The user message does
not influence the control flow; the provider behaviour is abstracted by
`upstream`. -/
def callGPTWithRetry (upstream : Nat → UpstreamOutcome) (retries : Nat)
    (delay : Nat) : RetryRun :=
  callGPTWithRetryAux upstream retries 1 delay

/-- The JSON value found in `req.body.message`: a string, a number, a
boolean, `null`, or absent (`undefined`). -/
inductive JsValue where
  | str (s : String)
  | num (n : Int)
  | bool (b : Bool)
  | null
  | undefined
deriving DecidableEq, Repr

/-- JavaScript truthiness test used by `if (!userMessage)`
(src/server.js line 87): `""`, `0`, `false`, `null` and `undefined` are
falsy. -/
def jsFalsy : JsValue → Bool
  | .str s => s = ""
  | .num n => n = 0
  | .bool b => !b
  | .null => true
  | .undefined => true

/-- An HTTP response from the `/chat` endpoint: status code and the
`reply` field of the JSON body. -/
structure ChatResponse where
  status : Nat
  reply : String
deriving DecidableEq, Repr

/-- `error.message` of each propagated failure, as interpolated into the
500 response body by the handler. -/
def errMessage : CallError → String
  | .http status => "Request failed with status code " ++ toString status
  | .network => "Network Error"
  | .extraction => "TypeError"
  | .exhausted => "Exceeded maximum retry attempts"

/-- The `POST /chat` handler (src/server.js lines 84-99): reject falsy
messages with a 400 and the fixed body, otherwise call
`callGPTWithRetry` with its default arguments (`retries = 3`,
`delay = 1000`).  The second component of the value is the number of
upstream calls made while serving the request. -/
def handleChat (message : JsValue) (upstream : Nat → UpstreamOutcome) :
    ChatResponse × Nat :=
  if jsFalsy message then
    (⟨400, "No message provided."⟩, 0)
  else
    let run := callGPTWithRetry upstream 3 1000
    match run.result with
    | .ok reply => (⟨200, reply⟩, run.attempts)
    | .error e =>
      (⟨500, "Sorry, something went wrong: " ++ errMessage e⟩, run.attempts)

/-- The retry state machine of one `callGPTWithRetry` invocation, for the
concurrency model: the loop counter, the current backoff delay, and the
final outcome once the call has terminated. -/
structure RunState where
  attempt : Nat
  delay : Nat
  outcome : Option (Except CallError String)
deriving Repr

/-- One step of the retry state machine of a single invocation: process
the current attempt exactly as one iteration of the loop body does.
Terminal states are fixed points. -/
def stepCall (upstream : Nat → UpstreamOutcome) (retries : Nat)
    (s : RunState) : RunState :=
  match s.outcome with
  | some _ => s
  | none =>
    if s.attempt > retries then
      { s with outcome := some (.error .exhausted) }
    else
      match upstream s.attempt with
      | .success body =>
        match extractReply body with
        | some reply => { s with outcome := some (.ok reply) }
        | none => { s with outcome := some (.error .extraction) }
      | .httpError status =>
        if status = 429 ∧ s.attempt < retries then
          ⟨s.attempt + 1, s.delay * 2, none⟩
        else
          { s with outcome := some (.error (.http status)) }
      | .networkError => { s with outcome := some (.error .network) }

/-- The initial retry state of one invocation entered with initial
delay `d`. -/
def initState (d : Nat) : RunState :=
  ⟨1, d, none⟩

/-- One scheduler step of two concurrent invocations: the chosen call
(`true` = first, `false` = second) advances by one state-machine step;
the other call's state is untouched. -/
def stepPair (u1 u2 : Nat → UpstreamOutcome) (r1 r2 : Nat) (which : Bool)
    (p : RunState × RunState) : RunState × RunState :=
  if which then
    (stepCall u1 r1 p.1, p.2)
  else
    (p.1, stepCall u2 r2 p.2)

/-- Run two concurrent invocations under an arbitrary interleaving
schedule. -/
def runPair (u1 u2 : Nat → UpstreamOutcome) (r1 r2 : Nat) :
    List Bool → RunState × RunState → RunState × RunState
  | [], p => p
  | which :: rest, p => runPair u1 u2 r1 r2 rest (stepPair u1 u2 r1 r2 which p)

/-- A provider that is rate-limited (HTTP 429) on every attempt before
the `n`-th and returns `body` on the `n`-th and later attempts. -/
def rateLimitedThenSuccess (n : Nat) (body : ResponseBody) :
    Nat → UpstreamOutcome :=
  fun attempt => if attempt < n then .httpError 429 else .success body

/-! ## Step lemmas: one unfolding of the attempt loop per branch -/

/-- Loop branch: successful response with a well-formed body returns the
extracted reply at the current attempt, with no further waits. -/
lemma callGPTWithRetryAux_success {u : Nat → UpstreamOutcome} {retries attempt : Nat}
    {body : ResponseBody} {reply : String} (d : Nat)
    (ha : attempt ≤ retries) (hu : u attempt = .success body)
    (he : extractReply body = some reply) :
    callGPTWithRetryAux u retries attempt d = ⟨.ok reply, attempt, []⟩ := by
  rw [callGPTWithRetryAux]
  simp [ha, hu, he]

/-- Loop branch: successful response with a malformed body throws the
extraction error at the current attempt, with no further waits. -/
lemma callGPTWithRetryAux_malformed {u : Nat → UpstreamOutcome} {retries attempt : Nat}
    {body : ResponseBody} (d : Nat)
    (ha : attempt ≤ retries) (hu : u attempt = .success body)
    (he : extractReply body = none) :
    callGPTWithRetryAux u retries attempt d = ⟨.error .extraction, attempt, []⟩ := by
  rw [callGPTWithRetryAux]
  simp [ha, hu, he]

/-- Loop branch: an HTTP error that is not a retryable 429 (wrong status,
or no attempts remaining) is thrown at the current attempt. -/
lemma callGPTWithRetryAux_httpStop {u : Nat → UpstreamOutcome} {retries attempt : Nat}
    {status : Nat} (d : Nat)
    (ha : attempt ≤ retries) (hu : u attempt = .httpError status)
    (hs : ¬(status = 429 ∧ attempt < retries)) :
    callGPTWithRetryAux u retries attempt d = ⟨.error (.http status), attempt, []⟩ := by
  rw [callGPTWithRetryAux]
  simp [ha, hu, hs]

/-- Loop branch: a failure with no HTTP response is thrown at the current
attempt. -/
lemma callGPTWithRetryAux_network {u : Nat → UpstreamOutcome} {retries attempt : Nat}
    (d : Nat) (ha : attempt ≤ retries) (hu : u attempt = .networkError) :
    callGPTWithRetryAux u retries attempt d = ⟨.error .network, attempt, []⟩ := by
  rw [callGPTWithRetryAux]
  simp [ha, hu]

/-- Loop branch: a 429 with attempts remaining waits `delay`, doubles the
delay, and continues with the next attempt. -/
lemma callGPTWithRetryAux_retry {u : Nat → UpstreamOutcome} {retries attempt : Nat}
    (d : Nat) (ha : attempt < retries) (hu : u attempt = .httpError 429) :
    callGPTWithRetryAux u retries attempt d =
      ⟨(callGPTWithRetryAux u retries (attempt + 1) (d * 2)).result,
       (callGPTWithRetryAux u retries (attempt + 1) (d * 2)).attempts,
       d :: (callGPTWithRetryAux u retries (attempt + 1) (d * 2)).waits⟩ := by
  rw [callGPTWithRetryAux]
  simp [Nat.le_of_lt ha, hu, ha]

/-- The geometric wait list `d, 2d, 4d, …` of length `k + 1` is `d`
followed by the geometric wait list of length `k` that starts at `2d`. -/
lemma range_pow_cons (d k : Nat) :
    (List.range (k + 1)).map (fun i => d * 2 ^ i) =
      d :: (List.range k).map (fun i => d * 2 * 2 ^ i) := by
  rw [List.range_succ_eq_map, List.map_cons, List.map_map]
  have h : ((fun i => d * 2 ^ i) ∘ Nat.succ) = fun i => d * 2 * 2 ^ i := by
    funext i
    simp only [Function.comp_apply, pow_succ]
    ring
  rw [h, pow_zero, Nat.mul_one]

/-- Running the loop through `k` consecutive retryable 429 failures:
the run continues at attempt `attempt + k` with delay `d * 2 ^ k`, after
performing the geometric waits `d, 2d, …, 2 ^ (k-1) * d`. -/
lemma callGPTWithRetryAux_skip (u : Nat → UpstreamOutcome) (retries : Nat) :
    ∀ k attempt d,
      (∀ i, attempt ≤ i → i < attempt + k → u i = .httpError 429) →
      attempt + k ≤ retries →
      callGPTWithRetryAux u retries attempt d =
        ⟨(callGPTWithRetryAux u retries (attempt + k) (d * 2 ^ k)).result,
         (callGPTWithRetryAux u retries (attempt + k) (d * 2 ^ k)).attempts,
         (List.range k).map (fun i => d * 2 ^ i) ++
           (callGPTWithRetryAux u retries (attempt + k) (d * 2 ^ k)).waits⟩ := by
  intro k
  induction k with
  | zero =>
    intro attempt d _ _
    simp
  | succ k ih =>
    intro attempt d hall hle
    have h429 : u attempt = .httpError 429 := hall attempt le_rfl (by omega)
    have hlt : attempt < retries := by omega
    rw [callGPTWithRetryAux_retry d hlt h429]
    have hall2 : ∀ i, attempt + 1 ≤ i → i < attempt + 1 + k → u i = .httpError 429 :=
      fun i h1 h2 => hall i (by omega) (by omega)
    rw [ih (attempt + 1) (d * 2) hall2 (by omega)]
    have hidx : attempt + 1 + k = attempt + (k + 1) := by omega
    have hpow : d * 2 * 2 ^ k = d * 2 ^ (k + 1) := by ring
    rw [hidx, hpow]
    simp only [RetryRun.mk.injEq, true_and]
    rw [range_pow_cons]
    simp


/-- The loop-invariant conjunction holds of any terminal loop exit
`⟨res, attempt, []⟩` whose result is not the defensive exhausted error. -/
lemma retryRunTermInv (u : Nat → UpstreamOutcome) {retries attempt : Nat} (d : Nat)
    (res : Except CallError String)
    (ha : attempt ≤ retries) (hres : res ≠ .error .exhausted) :
    (⟨res, attempt, []⟩ : RetryRun).attempts ≤ retries ∧
      (⟨res, attempt, []⟩ : RetryRun).waits =
        (List.range (⟨res, attempt, []⟩ : RetryRun).waits.length).map
          (fun i => d * 2 ^ i) ∧
      attempt + (⟨res, attempt, []⟩ : RetryRun).waits.length =
        (⟨res, attempt, []⟩ : RetryRun).attempts ∧
      (∀ i, attempt ≤ i → i < (⟨res, attempt, []⟩ : RetryRun).attempts →
        u i = .httpError 429) ∧
      (⟨res, attempt, []⟩ : RetryRun).result ≠ .error .exhausted :=
  ⟨ha, by simp, rfl,
   fun i h1 h2 => absurd (show i < attempt from h2) (by omega), hres⟩

/-- The loop invariant of `callGPTWithRetryAux` entered at any attempt
`attempt` with `attempt + k = retries`: the final attempt count is
bounded by `retries`, the waits performed are exactly the geometric
doubling sequence from the entry delay, each retry performed exactly one
wait, every non-final attempt failed with a retryable 429, and the
defensive exhausted error is never produced. -/
lemma callGPTWithRetryAux_inv (u : Nat → UpstreamOutcome) (retries : Nat) :
    ∀ k attempt d, attempt + k = retries →
      (callGPTWithRetryAux u retries attempt d).attempts ≤ retries ∧
      (callGPTWithRetryAux u retries attempt d).waits =
        (List.range (callGPTWithRetryAux u retries attempt d).waits.length).map
          (fun i => d * 2 ^ i) ∧
      attempt + (callGPTWithRetryAux u retries attempt d).waits.length =
        (callGPTWithRetryAux u retries attempt d).attempts ∧
      (∀ i, attempt ≤ i → i < (callGPTWithRetryAux u retries attempt d).attempts →
        u i = .httpError 429) ∧
      (callGPTWithRetryAux u retries attempt d).result ≠ .error .exhausted := by
  intro k
  induction k with
  | zero =>
    intro attempt d hk
    have ha : attempt ≤ retries := by omega
    rcases hu : u attempt with body | status | _
    · rcases he : extractReply body with _ | reply
      · rw [callGPTWithRetryAux_malformed d ha hu he]
        exact retryRunTermInv u d _ ha (by simp)
      · rw [callGPTWithRetryAux_success d ha hu he]
        exact retryRunTermInv u d _ ha (by simp)
    · rw [callGPTWithRetryAux_httpStop d ha hu (fun h => absurd h.2 (by omega))]
      exact retryRunTermInv u d _ ha (by simp)
    · rw [callGPTWithRetryAux_network d ha hu]
      exact retryRunTermInv u d _ ha (by simp)
  | succ k ih =>
    intro attempt d hk
    have ha : attempt ≤ retries := by omega
    rcases hu : u attempt with body | status | _
    · rcases he : extractReply body with _ | reply
      · rw [callGPTWithRetryAux_malformed d ha hu he]
        exact retryRunTermInv u d _ ha (by simp)
      · rw [callGPTWithRetryAux_success d ha hu he]
        exact retryRunTermInv u d _ ha (by simp)
    · by_cases h429 : status = 429
      · subst h429
        have hlt : attempt < retries := by omega
        rw [callGPTWithRetryAux_retry d hlt hu]
        obtain ⟨ih1, ih2, ih3, ih4, ih5⟩ := ih (attempt + 1) (d * 2) (by omega)
        refine ⟨ih1, ?_, ?_, ?_, ih5⟩
        · show d :: (callGPTWithRetryAux u retries (attempt + 1) (d * 2)).waits =
            (List.range
              ((callGPTWithRetryAux u retries (attempt + 1) (d * 2)).waits.length + 1)).map
              (fun i => d * 2 ^ i)
          rw [range_pow_cons, ← ih2]
        · show attempt +
              ((callGPTWithRetryAux u retries (attempt + 1) (d * 2)).waits.length + 1) =
            (callGPTWithRetryAux u retries (attempt + 1) (d * 2)).attempts
          omega
        · intro i h1 h2
          have h2' : i < (callGPTWithRetryAux u retries (attempt + 1) (d * 2)).attempts := h2
          rcases Nat.eq_or_lt_of_le h1 with h | h
          · rw [← h]; exact hu
          · exact ih4 i h h2'
      · rw [callGPTWithRetryAux_httpStop d ha hu (fun h => h429 h.1)]
        exact retryRunTermInv u d _ ha (by simp)
    · rw [callGPTWithRetryAux_network d ha hu]
      exact retryRunTermInv u d _ ha (by simp)

/-! ## Claim theorems -/

/-- C1: for every `maxAttempts = N ≥ 1` and initial delay `d`, with an
upstream that is rate-limited (HTTP 429) on attempts `1..N-1` and succeeds
on attempt `N`, `callGPTWithRetry` returns the success value after
exactly `N - 1` backoff waits, and the waits are exactly
`d, 2d, 4d, …` — each retryable failure doubles the delay used for the
next wait. -/
theorem retry_returns_after_geometric_backoff (u : Nat → UpstreamOutcome)
    (N d : Nat) (body : ResponseBody) (reply : String) (hN : 1 ≤ N)
    (hpre : ∀ i, 1 ≤ i → i < N → u i = .httpError 429)
    (hsuccN : u N = .success body) (he : extractReply body = some reply) :
    callGPTWithRetry u N d =
      ⟨.ok reply, N, (List.range (N - 1)).map (fun i => d * 2 ^ i)⟩ := by
  have hterm := callGPTWithRetryAux_success (d * 2 ^ (N - 1)) (le_refl N) hsuccN he
  have hall : ∀ i, 1 ≤ i → i < 1 + (N - 1) → u i = .httpError 429 :=
    fun i h1 h2 => hpre i h1 (by omega)
  have hskip := callGPTWithRetryAux_skip u N (N - 1) 1 d hall (by omega)
  have h1N : 1 + (N - 1) = N := by omega
  rw [h1N] at hskip
  unfold callGPTWithRetry
  rw [hskip, hterm]
  simp

/-- Witness for C1 at `N = 3`, `d = 1000`: two waits of 1000 ms and
2000 ms, then the trimmed reply of the third attempt. -/
theorem retry_returns_after_geometric_backoff_witness :
    callGPTWithRetry (rateLimitedThenSuccess 3 ⟨some [⟨some ⟨some " hi "⟩⟩]⟩) 3 1000 =
      ⟨.ok "hi", 3, [1000, 2000]⟩ := by
  have h := retry_returns_after_geometric_backoff
    (rateLimitedThenSuccess 3 ⟨some [⟨some ⟨some " hi "⟩⟩]⟩) 3 1000
    ⟨some [⟨some ⟨some " hi "⟩⟩]⟩ "hi" (by omega)
    (fun i _ h2 => by simp only [rateLimitedThenSuccess, if_pos h2]) rfl rfl
  rw [h]
  rfl

/-- C2: for every `maxAttempts = N ≥ 1`, with an upstream that is
rate-limited (HTTP 429) on every attempt, `callGPTWithRetry` fails with
the propagated rate-limit error after exactly `N` attempts, with only the
`N - 1` backoff waits performed before the final attempt. -/
theorem retry_exhausts_on_persistent_rate_limit (u : Nat → UpstreamOutcome)
    (N d : Nat) (hN : 1 ≤ N) (hall429 : ∀ i, u i = .httpError 429) :
    callGPTWithRetry u N d =
      ⟨.error (.http 429), N, (List.range (N - 1)).map (fun i => d * 2 ^ i)⟩ := by
  have hterm := callGPTWithRetryAux_httpStop (d * 2 ^ (N - 1)) (le_refl N)
    (hall429 N) (fun h => absurd h.2 (lt_irrefl N))
  have hall : ∀ i, 1 ≤ i → i < 1 + (N - 1) → u i = .httpError 429 :=
    fun i _ _ => hall429 i
  have hskip := callGPTWithRetryAux_skip u N (N - 1) 1 d hall (by omega)
  have h1N : 1 + (N - 1) = N := by omega
  rw [h1N] at hskip
  unfold callGPTWithRetry
  rw [hskip, hterm]
  simp

/-- Witness for C2 at `N = 3`, `d = 1000`: three attempts, two waits, and
the propagated HTTP 429 error. -/
theorem retry_exhausts_on_persistent_rate_limit_witness :
    callGPTWithRetry (fun _ => .httpError 429) 3 1000 =
      ⟨.error (.http 429), 3, [1000, 2000]⟩ := by
  have h := retry_exhausts_on_persistent_rate_limit (fun _ => .httpError 429)
    3 1000 (by omega) (fun _ => rfl)
  rw [h]
  rfl

/-- C3: for every `maxAttempts > 1`, if the upstream fails on attempt 1
with a failure that is not an explicit rate-limit signal — no HTTP
response at all, or an HTTP status other than 429 — `callGPTWithRetry`
propagates that failure after exactly one attempt, with no backoff wait
and no further attempts. -/
theorem retry_propagates_non_rate_limit_immediately (u : Nat → UpstreamOutcome)
    (retries d : Nat) (hr : 1 < retries) :
    (u 1 = .networkError →
      callGPTWithRetry u retries d = ⟨.error .network, 1, []⟩) ∧
    (∀ status, status ≠ 429 → u 1 = .httpError status →
      callGPTWithRetry u retries d = ⟨.error (.http status), 1, []⟩) := by
  constructor
  · intro hu
    unfold callGPTWithRetry
    exact callGPTWithRetryAux_network d (by omega) hu
  · intro status hs hu
    unfold callGPTWithRetry
    exact callGPTWithRetryAux_httpStop d (by omega) hu (fun h => hs h.1)

/-- Witness for C3: a network failure on attempt 1 with `maxAttempts = 3`
is propagated after one attempt with no waits. -/
theorem retry_propagates_non_rate_limit_immediately_witness :
    callGPTWithRetry (fun _ => .networkError) 3 1000 =
      ⟨.error .network, 1, []⟩ :=
  (retry_propagates_non_rate_limit_immediately (fun _ => .networkError)
    3 1000 (by omega)).1 rfl

/-- C4: with an upstream that succeeds on the first attempt with a
well-formed body, `callGPTWithRetry` returns the trimmed message content
of the first returned choice, makes exactly one upstream call, and
performs no backoff wait. -/
theorem retry_first_attempt_success (u : Nat → UpstreamOutcome) (retries d : Nat)
    (cs : List Choice) (s : String) (hr : 1 ≤ retries)
    (hu : u 1 = .success ⟨some (⟨some ⟨some s⟩⟩ :: cs)⟩) :
    callGPTWithRetry u retries d = ⟨.ok (jsTrim s), 1, []⟩ := by
  unfold callGPTWithRetry
  exact callGPTWithRetryAux_success d hr hu rfl

/-- Witness for C4: a first-attempt success whose first-choice content is
`"  hi there  "` yields the trimmed reply `"hi there"` in one attempt
with no waits. -/
theorem retry_first_attempt_success_witness :
    callGPTWithRetry (fun _ => .success ⟨some [⟨some ⟨some "  hi there  "⟩⟩]⟩) 3 1000 =
      ⟨.ok "hi there", 1, []⟩ := by
  have h := retry_first_attempt_success
    (fun _ => .success ⟨some [⟨some ⟨some "  hi there  "⟩⟩]⟩) 3 1000
    [] "  hi there  " (by omega) rfl
  rw [h]
  rfl

/-- C5: for every execution with `maxAttempts ≥ 1` and any upstream
behaviour, the attempt counter never exceeds `maxAttempts`, the waits
form the strictly doubling sequence `d, 2d, 4d, …` (the delay doubles
after each retryable failure), every retry performed exactly one wait,
and every non-final attempt failed with a retryable 429 — so no retry
follows a non-retryable failure or the final attempt. -/
theorem retry_loop_invariant (u : Nat → UpstreamOutcome) (retries d : Nat)
    (hr : 1 ≤ retries) :
    (callGPTWithRetry u retries d).attempts ≤ retries ∧
    (callGPTWithRetry u retries d).waits =
      (List.range (callGPTWithRetry u retries d).waits.length).map
        (fun i => d * 2 ^ i) ∧
    (callGPTWithRetry u retries d).waits.length + 1 =
      (callGPTWithRetry u retries d).attempts ∧
    (∀ i, 1 ≤ i → i < (callGPTWithRetry u retries d).attempts →
      u i = .httpError 429) := by
  unfold callGPTWithRetry
  obtain ⟨h1, h2, h3, h4, _⟩ :=
    callGPTWithRetryAux_inv u retries (retries - 1) 1 d (by omega)
  exact ⟨h1, h2, by omega, h4⟩

/-- Witness for C5 at a persistently rate-limited upstream with
`maxAttempts = 3`, `d = 1000`. -/
theorem retry_loop_invariant_witness :
    (callGPTWithRetry (fun _ => .httpError 429) 3 1000).attempts ≤ 3 ∧
    (callGPTWithRetry (fun _ => .httpError 429) 3 1000).waits =
      (List.range
        (callGPTWithRetry (fun _ => .httpError 429) 3 1000).waits.length).map
        (fun i => 1000 * 2 ^ i) ∧
    (callGPTWithRetry (fun _ => .httpError 429) 3 1000).waits.length + 1 =
      (callGPTWithRetry (fun _ => .httpError 429) 3 1000).attempts ∧
    (∀ i, 1 ≤ i →
      i < (callGPTWithRetry (fun _ => .httpError 429) 3 1000).attempts →
      (fun _ : Nat => UpstreamOutcome.httpError 429) i = .httpError 429) :=
  retry_loop_invariant (fun _ => .httpError 429) 3 1000 (by omega)

/-- C6: for every `maxAttempts ≥ 1` and any upstream behaviour, the
defensive `throw new Error('Exceeded maximum retry attempts')` after the
attempt loop is unreachable: the produced result is never the exhausted
error, because every iteration returns, continues, or throws, and the
final attempt always returns or throws. -/
theorem retry_exhausted_fallback_unreachable (u : Nat → UpstreamOutcome)
    (retries d : Nat) (hr : 1 ≤ retries) :
    (callGPTWithRetry u retries d).result ≠ .error .exhausted := by
  unfold callGPTWithRetry
  exact (callGPTWithRetryAux_inv u retries (retries - 1) 1 d (by omega)).2.2.2.2

/-- Witness for C6 at a persistently rate-limited upstream with
`maxAttempts = 3`. -/
theorem retry_exhausted_fallback_unreachable_witness :
    (callGPTWithRetry (fun _ => .httpError 429) 3 1000).result ≠
      .error .exhausted :=
  retry_exhausted_fallback_unreachable (fun _ => .httpError 429) 3 1000 (by omega)

/-- C7: if the upstream call returns a success response whose body is
malformed (no `choices`, empty `choices`, or a first choice without
message content) on any attempt `k ≤ maxAttempts`, `callGPTWithRetry`
fails immediately with the extraction error: the run ends at attempt `k`
with only the `k - 1` backoff waits that preceded attempt `k` — no retry
and no further wait. -/
theorem retry_malformed_body_fails_immediately (u : Nat → UpstreamOutcome)
    (retries d k : Nat) (body : ResponseBody) (h1 : 1 ≤ k) (h2 : k ≤ retries)
    (hprev : ∀ i, 1 ≤ i → i < k → u i = .httpError 429)
    (hk : u k = .success body) (hm : extractReply body = none) :
    callGPTWithRetry u retries d =
      ⟨.error .extraction, k, (List.range (k - 1)).map (fun i => d * 2 ^ i)⟩ := by
  have h1k : 1 + (k - 1) = k := by omega
  have hall : ∀ i, 1 ≤ i → i < 1 + (k - 1) → u i = .httpError 429 :=
    fun i hi1 hi2 => hprev i hi1 (by omega)
  have hskip := callGPTWithRetryAux_skip u retries (k - 1) 1 d hall (by omega)
  rw [h1k] at hskip
  have hterm := callGPTWithRetryAux_malformed (d * 2 ^ (k - 1)) h2 hk hm
  unfold callGPTWithRetry
  rw [hskip, hterm]
  simp

/-- Witness for C7: 429 on attempt 1, then a success body with an empty
`choices` array on attempt 2 of 3 — one prior wait, extraction failure at
attempt 2, no retry afterwards. -/
theorem retry_malformed_body_fails_immediately_witness :
    callGPTWithRetry
      (fun i => if i < 2 then .httpError 429 else .success ⟨some []⟩) 3 1000 =
      ⟨.error .extraction, 2, [1000]⟩ := by
  have h := retry_malformed_body_fails_immediately
    (fun i => if i < 2 then .httpError 429 else .success ⟨some []⟩) 3 1000 2
    ⟨some []⟩ (by omega) (by omega)
    (fun i _ hi2 => by simp only [if_pos hi2]) rfl rfl
  rw [h]
  rfl

/-- C8: a `POST /chat` request whose `message` field is absent or the
empty string gets the 400 response with body
`{ reply: "No message provided." }`, and no upstream call is made. -/
theorem chat_rejects_missing_or_empty_message (u : Nat → UpstreamOutcome)
    (m : JsValue) (h : m = .undefined ∨ m = .str "") :
    handleChat m u = (⟨400, "No message provided."⟩, 0) := by
  rcases h with h | h <;> subst h <;> rfl

/-- Witness for C8: the empty-string message is rejected without any
upstream call, even against an upstream that would always succeed. -/
theorem chat_rejects_missing_or_empty_message_witness :
    handleChat (.str "")
      (fun _ => .success ⟨some [⟨some ⟨some "hi"⟩⟩]⟩) =
      (⟨400, "No message provided."⟩, 0) :=
  chat_rejects_missing_or_empty_message
    (fun _ => .success ⟨some [⟨some ⟨some "hi"⟩⟩]⟩) (.str "") (Or.inr rfl)

/-- C10 (implicit): the presence check `if (!userMessage)` rejects every
falsy message value, not only absent or empty-string ones — the JSON
values `false`, `0` and `null` also get the 400 response with body
`{ reply: "No message provided." }` and no upstream call. -/
theorem chat_rejects_falsy_message (u : Nat → UpstreamOutcome) (m : JsValue)
    (h : m = .bool false ∨ m = .num 0 ∨ m = .null) :
    handleChat m u = (⟨400, "No message provided."⟩, 0) := by
  rcases h with h | h | h <;> subst h <;> rfl

/-- Witness for C10: the JSON value `false` is rejected without any
upstream call, even against an upstream that would always succeed. -/
theorem chat_rejects_falsy_message_witness :
    handleChat (.bool false)
      (fun _ => .success ⟨some [⟨some ⟨some "hi"⟩⟩]⟩) =
      (⟨400, "No message provided."⟩, 0) :=
  chat_rejects_falsy_message
    (fun _ => .success ⟨some [⟨some ⟨some "hi"⟩⟩]⟩) (.bool false) (Or.inl rfl)

/-- C9: two concurrent invocations of the completion client, interleaved
under an arbitrary schedule, do not affect each other's attempt counters,
delays or results: after any schedule, each call's state is exactly the
state its own retry state machine reaches after its own number of steps,
depending only on its own upstream behaviour and arguments. -/
theorem concurrent_runs_independent (u1 u2 : Nat → UpstreamOutcome)
    (r1 r2 : Nat) (sched : List Bool) (p : RunState × RunState) :
    (runPair u1 u2 r1 r2 sched p).1 =
      (stepCall u1 r1)^[sched.count true] p.1 ∧
    (runPair u1 u2 r1 r2 sched p).2 =
      (stepCall u2 r2)^[sched.count false] p.2 := by
  induction sched generalizing p with
  | nil => simp [runPair]
  | cons which rest ih =>
    cases which
    · simpa [runPair, stepPair, List.count_cons, Function.iterate_succ_apply]
        using ih (p.1, stepCall u2 r2 p.2)
    · simpa [runPair, stepPair, List.count_cons, Function.iterate_succ_apply]
        using ih (stepCall u1 r1 p.1, p.2)

/-- Adequacy of the retry state machine: iterating `stepCall` from the
state entered at attempt `attempt` with delay `d` reaches, in finitely
many steps, exactly the attempt counter, final delay and result computed
by `callGPTWithRetryAux` — the machine of the concurrency model is the
same algorithm as the recursive loop. -/
lemma stepCall_iterate_eq (u : Nat → UpstreamOutcome) (retries : Nat) :
    ∀ k attempt d, attempt + k = retries →
      ∃ n, (stepCall u retries)^[n] ⟨attempt, d, none⟩ =
        ⟨(callGPTWithRetryAux u retries attempt d).attempts,
         d * 2 ^ (callGPTWithRetryAux u retries attempt d).waits.length,
         some (callGPTWithRetryAux u retries attempt d).result⟩ := by
  intro k
  induction k with
  | zero =>
    intro attempt d hk
    have ha : attempt ≤ retries := by omega
    have hng : ¬ attempt > retries := by omega
    rcases hu : u attempt with body | status | _
    · rcases he : extractReply body with _ | reply
      · refine ⟨1, ?_⟩
        rw [callGPTWithRetryAux_malformed d ha hu he]
        simp [stepCall, hu, he, hng]
      · refine ⟨1, ?_⟩
        rw [callGPTWithRetryAux_success d ha hu he]
        simp [stepCall, hu, he, hng]
    · have hcond : ¬(status = 429 ∧ attempt < retries) :=
        fun h => absurd h.2 (by omega)
      refine ⟨1, ?_⟩
      rw [callGPTWithRetryAux_httpStop d ha hu hcond]
      simp [stepCall, hu, hng, hcond]
    · refine ⟨1, ?_⟩
      rw [callGPTWithRetryAux_network d ha hu]
      simp [stepCall, hu, hng]
  | succ k ih =>
    intro attempt d hk
    have ha : attempt ≤ retries := by omega
    have hng : ¬ attempt > retries := by omega
    rcases hu : u attempt with body | status | _
    · rcases he : extractReply body with _ | reply
      · refine ⟨1, ?_⟩
        rw [callGPTWithRetryAux_malformed d ha hu he]
        simp [stepCall, hu, he, hng]
      · refine ⟨1, ?_⟩
        rw [callGPTWithRetryAux_success d ha hu he]
        simp [stepCall, hu, he, hng]
    · by_cases h429 : status = 429
      · subst h429
        have hlt : attempt < retries := by omega
        have hs : stepCall u retries ⟨attempt, d, none⟩ = ⟨attempt + 1, d * 2, none⟩ := by
          simp [stepCall, hng, hu, hlt]
        obtain ⟨n, hn⟩ := ih (attempt + 1) (d * 2) (by omega)
        refine ⟨n + 1, ?_⟩
        rw [Function.iterate_succ_apply, hs, hn, callGPTWithRetryAux_retry d hlt hu]
        have hd : d * 2 * 2 ^
              (callGPTWithRetryAux u retries (attempt + 1) (d * 2)).waits.length =
            d * 2 ^
              ((callGPTWithRetryAux u retries (attempt + 1) (d * 2)).waits.length + 1) := by
          ring
        simp [hd]
      · have hcond : ¬(status = 429 ∧ attempt < retries) := fun h => h429 h.1
        refine ⟨1, ?_⟩
        rw [callGPTWithRetryAux_httpStop d ha hu hcond]
        simp [stepCall, hu, hng, hcond]
    · refine ⟨1, ?_⟩
      rw [callGPTWithRetryAux_network d ha hu]
      simp [stepCall, hu, hng]

/-- Adequacy at the initial state: for `retries ≥ 1` the state machine
started at `initState d` reaches the exact result, attempt count and
final delay of `callGPTWithRetry u retries d`. -/
lemma stepCall_simulates_callGPTWithRetry (u : Nat → UpstreamOutcome)
    (retries d : Nat) (hr : 1 ≤ retries) :
    ∃ n, (stepCall u retries)^[n] (initState d) =
      ⟨(callGPTWithRetry u retries d).attempts,
       d * 2 ^ (callGPTWithRetry u retries d).waits.length,
       some (callGPTWithRetry u retries d).result⟩ := by
  unfold callGPTWithRetry initState
  exact stepCall_iterate_eq u retries (retries - 1) 1 d (by omega)
